import Mathlib

/-!
Verification of the RaspAI voice assistant (xVc323/raspai).

Shallow embedding of the concurrency and lifecycle core of
`raspai_integrated.py`, `passive_listener.py` and `button_control.py`:

* the module-level `audio_lock` (`threading.Lock`) guarding the three
  microphone capture paths (wake-word listen, query listen, passive record);
* the `SharedTTS` speech queue and its single worker thread;
* the `PassiveListener` lifecycle (`start` / `stop` / `toggle`), its
  sound-activity detector `_detect_sound_activity`, `record_audio`,
  `run_commentary_cycle` and the Gemini prompt builder;
* the `ButtonController` polling debounce and the GPIO `bouncetime`
  configuration of `IntegratedAssistant.setup_gpio`.

Concurrency is embedded as labelled transition systems: a schedule is a
list of events, `...run` folds the step function over it and returns
`none` when an event's precondition does not hold (so `some` results are
exactly the valid interleavings).
-/

namespace Raspai

/-! ### The shared microphone lock (`raspai_integrated.py` line 58)

`audio_lock = threading.Lock()` is acquired (via `with audio_lock:`) by
three capture paths: `VoiceAssistant.listen_for_wake_word`,
`VoiceAssistant.listen_for_query` and `PassiveListener.record_audio`.
A `threading.Lock` grants `acquire()` only when the lock is free and
blocks otherwise; `with` releases it on every exit path.  We model each
capture path's holding flag separately and the lock's own state, and let
any interleaving of acquire/release events run. -/

/-- The three capture paths that take `audio_lock`. -/
inductive CapPath
  | wake
  | query
  | passive
  deriving DecidableEq, Repr, Fintype

/-- State of `audio_lock` plus, for each capture path, whether its
`with audio_lock:` body is currently executing (it holds the lease). -/
structure ArbState where
  lockHeld : Bool
  wakeHolds : Bool
  queryHolds : Bool
  passiveHolds : Bool
  deriving DecidableEq, Repr, Fintype

/-- Whether capture path `c` currently holds the microphone lease. -/
def ArbState.holds (s : ArbState) : CapPath → Bool
  | .wake => s.wakeHolds
  | .query => s.queryHolds
  | .passive => s.passiveHolds

/-- Set the holding flag of capture path `c`. -/
def ArbState.setHolds (s : ArbState) (c : CapPath) (b : Bool) : ArbState :=
  match c with
  | .wake => { s with wakeHolds := b }
  | .query => { s with queryHolds := b }
  | .passive => { s with passiveHolds := b }

/-- Events on the shared lock: a capture path entering or leaving its
`with audio_lock:` block. -/
inductive ArbEv
  | acquire (c : CapPath)
  | release (c : CapPath)
  deriving DecidableEq, Repr, Fintype

/-- One step of the lock protocol.  `acquire` succeeds only while the lock
is free (`threading.Lock.acquire` blocks otherwise, so no state change is
possible for that path until the lock is released); `release` is performed
by the `with` statement of the path that holds the lease. -/
def arbStep (s : ArbState) : ArbEv → Option ArbState
  | .acquire c =>
      if s.lockHeld then none
      else some ({ s with lockHeld := true }.setHolds c true)
  | .release c =>
      if s.holds c then some ({ s.setHolds c false with lockHeld := false })
      else none

/-- Run a schedule of lock events; `none` marks an invalid interleaving. -/
def arbRun (s : ArbState) : List ArbEv → Option ArbState
  | [] => some s
  | e :: es =>
      match arbStep s e with
      | none => none
      | some s2 => arbRun s2 es

/-- Initial state: the lock is free and no capture path records. -/
def arbInit : ArbState :=
  { lockHeld := false, wakeHolds := false, queryHolds := false, passiveHolds := false }

/-- Number of capture paths currently holding the microphone lease. -/
def holderCount (s : ArbState) : Nat :=
  (if s.wakeHolds then 1 else 0) + (if s.queryHolds then 1 else 0) +
    (if s.passiveHolds then 1 else 0)

/-- Inductive invariant of the lock protocol: the lock is free and nobody
holds a lease, or the lock is taken and exactly one path holds it. -/
def ArbInv (s : ArbState) : Prop :=
  (s.lockHeld = false ∧ holderCount s = 0) ∨ (s.lockHeld = true ∧ holderCount s = 1)

instance (s : ArbState) : Decidable (ArbInv s) := by
  unfold ArbInv
  infer_instance

theorem arbStep_inv_all :
    ∀ (s s2 : ArbState) (e : ArbEv), ArbInv s → arbStep s e = some s2 → ArbInv s2 := by
  decide

theorem arbRun_inv :
    ∀ (evs : List ArbEv) (s s2 : ArbState), ArbInv s → arbRun s evs = some s2 → ArbInv s2 := by
  intro evs
  induction evs with
  | nil => intro s s2 h hr; simp only [arbRun, Option.some.injEq] at hr; cases hr; exact h
  | cons e es ih =>
      intro s s2 h hr
      simp only [arbRun] at hr
      cases hs : arbStep s e with
      | none => rw [hs] at hr; cases hr
      | some s1 =>
          rw [hs] at hr
          exact ih s1 s2 (arbStep_inv_all s s1 e h hs) hr

/-- **C1.** For every interleaving of acquire/release events by the
wake-word listener, the query listener and the passive recorder on the
shared `audio_lock`, at most one of the three capture paths holds the
microphone lease at any instant. -/
theorem audio_lock_mutual_exclusion (evs : List ArbEv) (s : ArbState)
    (h : arbRun arbInit evs = some s) : holderCount s ≤ 1 := by
  have hinv : ArbInv s := arbRun_inv evs arbInit s (by left; constructor <;> rfl) h
  rcases hinv with ⟨_, hc⟩ | ⟨_, hc⟩ <;> omega

/-- Witness: after the passive recorder acquires the lock (a concrete valid
interleaving), the holder count is indeed at most one. -/
theorem audio_lock_mutual_exclusion_witness :
    holderCount { lockHeld := true, wakeHolds := false, queryHolds := false,
                  passiveHolds := true } ≤ 1 :=
  audio_lock_mutual_exclusion [ArbEv.acquire CapPath.passive] _ (by rfl)

/-! ### The speech queue (`raspai_integrated.py`, class `SharedTTS`)

`SharedTTS` owns a `queue.Queue`, and a single daemon worker thread runs
`_tts_worker`: it repeatedly takes `(text, voice_id)` from the queue and,
if the text is non-empty, performs the blocking `say`/`runAndWait` under
`self.lock`.  `speak(text, voice_id)` enqueues only when `text` is truthy
(an empty text is silently dropped).  Because there is exactly one worker
thread, its control point is either "waiting on `queue.get`" or "speaking
one request"; we model it as an `Option` of the in-flight request, and the
enqueuers as arbitrary interleaved `speak` events.  `enqueuedLog` is a
ghost trace of every accepted enqueue, in order. -/

/-- A speech request: the pair `(text, voice_id)` put on the TTS queue. -/
structure SpeechReq where
  text : String
  voice : Option String
  deriving DecidableEq, Repr

/-- State of `SharedTTS`: the pending queue, the worker's in-flight
request (if any), the list of completed utterances in completion order,
and a ghost log of accepted enqueues in enqueue order. -/
structure TtsState where
  pending : List SpeechReq
  speaking : Option SpeechReq
  spokenDone : List SpeechReq
  enqueuedLog : List SpeechReq
  deriving DecidableEq, Repr

/-- Events: some thread calls `speak text voice`; the worker dequeues the
head and starts speaking it; the worker's `runAndWait` returns. -/
inductive TtsEv
  | speak (text : String) (voice : Option String)
  | workerBegin
  | workerDone
  deriving DecidableEq, Repr

/-- One step of the `SharedTTS` protocol.  `speak` with an empty text is
the code's `if text:` drop (a no-op); `workerBegin` requires the single
worker to be idle and the queue non-empty (`queue.get` takes the FIFO
head); `workerDone` finishes the in-flight utterance. -/
def ttsStep (s : TtsState) : TtsEv → Option TtsState
  | .speak t v =>
      if t = "" then some s
      else some { s with pending := s.pending ++ [⟨t, v⟩],
                         enqueuedLog := s.enqueuedLog ++ [⟨t, v⟩] }
  | .workerBegin =>
      match s.speaking, s.pending with
      | none, r :: rest => some { s with pending := rest, speaking := some r }
      | _, _ => none
  | .workerDone =>
      match s.speaking with
      | some r => some { s with speaking := none, spokenDone := s.spokenDone ++ [r] }
      | none => none

/-- Run a schedule of TTS events; `none` marks an invalid interleaving. -/
def ttsRun (s : TtsState) : List TtsEv → Option TtsState
  | [] => some s
  | e :: es =>
      match ttsStep s e with
      | none => none
      | some s2 => ttsRun s2 es

/-- Initial `SharedTTS` state: empty queue, idle worker. -/
def ttsInit : TtsState :=
  { pending := [], speaking := none, spokenDone := [], enqueuedLog := [] }

/-- The FIFO invariant of `SharedTTS`: completed utterances, then the
in-flight one, then the pending queue, is exactly the enqueue log; and
every accepted enqueue has non-empty text. -/
def TtsInv (s : TtsState) : Prop :=
  s.spokenDone ++ s.speaking.toList ++ s.pending = s.enqueuedLog ∧
    ∀ r ∈ s.enqueuedLog, r.text ≠ ""

theorem ttsStep_inv {s s2 : TtsState} {e : TtsEv} (h : TtsInv s)
    (hs : ttsStep s e = some s2) : TtsInv s2 := by
  obtain ⟨hord, hne⟩ := h
  cases e with
  | speak t v =>
      simp only [ttsStep] at hs
      split at hs
      · cases hs; exact ⟨hord, hne⟩
      · cases hs
        refine ⟨?_, ?_⟩
        · simpa [List.append_assoc] using congrArg (· ++ [(⟨t, v⟩ : SpeechReq)]) hord
        · intro r hr
          rcases List.mem_append.mp hr with hr | hr
          · exact hne r hr
          · simp only [List.mem_singleton] at hr
            subst hr
            simpa using ‹¬t = ""›
  | workerBegin =>
      simp only [ttsStep] at hs
      cases hsp : s.speaking with
      | some r => rw [hsp] at hs; cases hs
      | none =>
          rw [hsp] at hs
          cases hpend : s.pending with
          | nil => rw [hpend] at hs; cases hs
          | cons r rest =>
              rw [hpend] at hs
              cases hs
              rw [hsp, hpend] at hord
              refine ⟨?_, hne⟩
              simpa using hord
  | workerDone =>
      simp only [ttsStep] at hs
      cases hsp : s.speaking with
      | none => rw [hsp] at hs; cases hs
      | some r =>
          rw [hsp] at hs
          cases hs
          rw [hsp] at hord
          refine ⟨?_, hne⟩
          simpa [List.append_assoc] using hord

theorem ttsRun_inv :
    ∀ (evs : List TtsEv) (s s2 : TtsState), TtsInv s → ttsRun s evs = some s2 → TtsInv s2 := by
  intro evs
  induction evs with
  | nil => intro s s2 h hr; simp only [ttsRun, Option.some.injEq] at hr; cases hr; exact h
  | cons e es ih =>
      intro s s2 h hr
      simp only [ttsRun] at hr
      cases hs : ttsStep s e with
      | none => rw [hs] at hr; cases hr
      | some s1 =>
          rw [hs] at hr
          exact ih s1 s2 (ttsStep_inv h hs) hr

/-- **C2.** For any interleaving of `speak` enqueues with the dedicated
worker's actions, the utterances (completed ones, then the in-flight one,
then the still-pending ones) are exactly the accepted enqueues in enqueue
order — so the worker speaks them in strict FIFO order — and at most one
utterance is in flight at any time. -/
theorem shared_tts_fifo_single_flight (evs : List TtsEv) (s : TtsState)
    (h : ttsRun ttsInit evs = some s) :
    s.spokenDone ++ s.speaking.toList ++ s.pending = s.enqueuedLog ∧
      s.speaking.toList.length ≤ 1 ∧ ∀ r ∈ s.enqueuedLog, r.text ≠ "" := by
  have hinv : TtsInv s := ttsRun_inv evs ttsInit s ⟨rfl, by simp [ttsInit]⟩ h
  refine ⟨hinv.1, ?_, hinv.2⟩
  cases s.speaking <;> simp

/-- Witness: a concrete schedule — enqueue "hello", worker speaks it to
completion, an empty text is dropped, "bye" is enqueued and starts. -/
theorem shared_tts_fifo_single_flight_witness :
    ({ pending := [], speaking := some ⟨"bye", none⟩,
       spokenDone := [⟨"hello", some "v1"⟩],
       enqueuedLog := [⟨"hello", some "v1"⟩, ⟨"bye", none⟩] } : TtsState).spokenDone ++
        (Option.toList (some (⟨"bye", none⟩ : SpeechReq))) ++ [] =
        [⟨"hello", some "v1"⟩, ⟨"bye", none⟩] := by
  have h := shared_tts_fifo_single_flight
    [TtsEv.speak "hello" (some "v1"), TtsEv.workerBegin, TtsEv.workerDone,
     TtsEv.speak "" none, TtsEv.speak "bye" none, TtsEv.workerBegin]
    { pending := [], speaking := some ⟨"bye", none⟩,
      spokenDone := [⟨"hello", some "v1"⟩],
      enqueuedLog := [⟨"hello", some "v1"⟩, ⟨"bye", none⟩] }
    (by rfl)
  exact h.1

/-! ### `PassiveListener` lifecycle (`raspai_integrated.py` lines 541-572)

The flags that `start` / `stop` / `toggle` read and write: `self.running`,
whether `self.stop_event` is set, and whether `self.thread` is not `None`.
`start` is a no-op returning `False` when already running, otherwise it
sets `running`, clears the stop event, creates and starts the thread and
returns `True`.  `stop` is a no-op returning `False` when not running,
otherwise it clears `running`, sets the stop event, joins and drops the
thread and returns `True`.  `toggle` dispatches on `running`. -/

/-- The lifecycle-relevant fields of a `PassiveListener`. -/
structure ListenerState where
  running : Bool
  stopEventSet : Bool
  hasThread : Bool
  deriving DecidableEq, Repr

/-- `PassiveListener.__init__`: disabled, event unset, no thread. -/
def listenerInit : ListenerState :=
  { running := false, stopEventSet := false, hasThread := false }

/-- `PassiveListener.start` (returns the Python return value and the new
state). -/
def ListenerState.start (s : ListenerState) : Bool × ListenerState :=
  if s.running = false then
    (true, { running := true, stopEventSet := false, hasThread := true })
  else
    (false, s)

/-- `PassiveListener.stop`. -/
def ListenerState.stop (s : ListenerState) : Bool × ListenerState :=
  if s.running = true then
    (true, { running := false, stopEventSet := true, hasThread := false })
  else
    (false, s)

/-- `PassiveListener.toggle`. -/
def ListenerState.toggle (s : ListenerState) : Bool × ListenerState :=
  if s.running = true then s.stop else s.start

/-- **C3.** `stop()` on an already-disabled listener is a no-op returning
`False` with the state unchanged, and `start()` on an already-enabled
listener is a no-op returning `False` with the state unchanged. -/
theorem start_stop_idempotent (s : ListenerState) :
    (s.running = false → s.stop = (false, s)) ∧
      (s.running = true → s.start = (false, s)) := by
  constructor
  · intro h
    simp [ListenerState.stop, h]
  · intro h
    simp [ListenerState.start, h]

/-- Witness: the no-op cases at concrete states. -/
theorem start_stop_idempotent_witness :
    ListenerState.stop ⟨false, false, false⟩ = (false, ⟨false, false, false⟩) ∧
      ListenerState.start ⟨true, false, true⟩ = (false, ⟨true, false, true⟩) :=
  ⟨(start_stop_idempotent ⟨false, false, false⟩).1 rfl,
   (start_stop_idempotent ⟨true, false, true⟩).2 rfl⟩

/-- **C10.** Without concurrent calls, `toggle()` always returns `True`
and inverts the `running` flag, so two consecutive `toggle()` calls
restore the original enabled/disabled state. -/
theorem toggle_inverts_running (s : ListenerState) :
    (s.toggle.1 = true ∧ s.toggle.2.running = !s.running) ∧
      (s.toggle.2.toggle.2.running = s.running) := by
  cases h : s.running <;>
    simp [ListenerState.toggle, ListenerState.stop, ListenerState.start, h]

/-! ### Recording-duration caps (`run_commentary_cycle` in both variants)

`self.interval` is stored in seconds (the constructor multiplies the
minutes argument by 60).  `passive_listener.py` line 307 computes
`recording_duration = min(60, self.interval // 2)`; `raspai_integrated.py`
line 490 computes `recording_duration = min(30, self.interval // 4)`.
That value is the `duration` passed to `record_audio`. -/

/-- `recording_duration` of `raspai_integrated.py` (interval in seconds). -/
def recording_duration_integrated (interval : Nat) : Nat :=
  min 30 (interval / 4)

/-- `recording_duration` of `passive_listener.py` (interval in seconds). -/
def recording_duration_passive (interval : Nat) : Nat :=
  min 60 (interval / 2)

/-- **C5.** In every commentary cycle (either variant), the capture
duration passed to `record_audio` is at most half the configured cycle
interval and is further capped by a fixed absolute bound (30 s in the
integrated variant, 60 s in the standalone variant); in particular, with
an interval of 120 seconds the recording duration is at most 60 seconds. -/
theorem recording_duration_capped (interval : Nat) :
    2 * recording_duration_integrated interval ≤ interval ∧
      recording_duration_integrated interval ≤ 30 ∧
      2 * recording_duration_passive interval ≤ interval ∧
      recording_duration_passive interval ≤ 60 ∧
      recording_duration_integrated 120 ≤ 60 ∧
      recording_duration_passive 120 ≤ 60 := by
  unfold recording_duration_integrated recording_duration_passive
  refine ⟨?_, ?_, ?_, ?_, ?_, ?_⟩ <;> omega

/-! ### `stop()` versus the in-flight cycle (`raspai_integrated.py`)

`PassiveListener.stop` sets `self.running = False`, sets
`self.stop_event`, and calls `self.thread.join(timeout=2)` — a join with a
2-second timeout, which returns whether or not the thread has exited.
The listener thread (`_listener_loop` / `run_commentary_cycle` /
`record_audio`) checks `self.stop_event` at `record_audio`'s entry (lines
395-396) and once per chunk inside the capture loop, and releases
`audio_lock` when the `with` block exits.  The entry check and the lock
acquisition (`with audio_lock:` at line 405) are separate program points:
the thread can pass the check, then `stop()` runs in full, and only
afterwards the lock is acquired — so the model keeps an intermediate
`armed` control point between them, and the acquisition itself is not
guarded by the stop event.  We model the interleaving of the listener
thread with a `stop()` caller; the join timeout is a nondeterministic
step that is always enabled (the timer can expire before the thread
exits). -/

/-- Control point of the listener thread, as far as the microphone lease
is concerned: in its loop outside a capture; past `record_audio`'s entry
check but not yet holding `audio_lock` (`armed`); inside the chunk loop
holding `audio_lock` (with `rem` chunks left to read); or exited. -/
inductive ThreadSt
  | idle
  | armed
  | recording (rem : Nat)
  | done
  deriving DecidableEq, Repr

/-- Control point of the `stop()` caller: not yet called, blocked in
`thread.join(timeout=2)`, or returned. -/
inductive CallerSt
  | notCalled
  | joining
  | returned
  deriving DecidableEq, Repr

/-- Joint state of the listener thread and a `stop()` caller. -/
structure StopState where
  running : Bool
  stopEventSet : Bool
  thread : ThreadSt
  caller : CallerSt
  deriving DecidableEq, Repr

/-- Whether the listener thread currently holds the microphone lease
(it is inside `record_audio`'s `with audio_lock:` block). -/
def StopState.leaseHeld (s : StopState) : Bool :=
  match s.thread with
  | .recording _ => true
  | _ => false

/-- Events of the stop/record interleaving. -/
inductive StopEv
  /-- `record_audio` passes its entry check (lines 395-396: `self.running`
  true and `self.stop_event` unset); the lock is not yet taken. -/
  | checkPass
  /-- the thread reaches `with audio_lock:` (line 405) and acquires the
  lock for `d` chunks; the code does not re-check the stop event here. -/
  | acquireLock (d : Nat)
  /-- one iteration of the chunk loop (only while the stop event is unset;
  otherwise the loop breaks at the top of the iteration). -/
  | recChunk
  /-- the chunk loop ends (chunks exhausted, or broken by the stop event);
  the stream is closed and `audio_lock` released. -/
  | recFinish
  /-- `_listener_loop` observes `running` false or the stop event and the
  thread function returns. -/
  | threadExit
  /-- `stop()` runs its body up to the join: clears `running`, sets
  `stop_event`, calls `thread.join(timeout=2)`. -/
  | stopSignal
  /-- the join returns because the thread has exited. -/
  | joinDone
  /-- the join's 2-second timeout expires before the thread exits and
  `stop()` returns anyway. -/
  | joinTimeout
  deriving DecidableEq, Repr

/-- One interleaving step. -/
def stopStep (s : StopState) : StopEv → Option StopState
  | .checkPass =>
      if s.thread = .idle ∧ s.running = true ∧ s.stopEventSet = false then
        some { s with thread := .armed }
      else none
  | .acquireLock d =>
      if s.thread = .armed then some { s with thread := .recording d } else none
  | .recChunk =>
      match s.thread with
      | .recording n =>
          if 0 < n ∧ s.stopEventSet = false then some { s with thread := .recording (n - 1) }
          else none
      | _ => none
  | .recFinish =>
      match s.thread with
      | .recording n =>
          if n = 0 ∨ s.stopEventSet = true then some { s with thread := .idle } else none
      | _ => none
  | .threadExit =>
      if s.thread = .idle ∧ (s.stopEventSet = true ∨ s.running = false) then
        some { s with thread := .done }
      else none
  | .stopSignal =>
      if s.caller = .notCalled ∧ s.running = true then
        some { s with running := false, stopEventSet := true, caller := .joining }
      else none
  | .joinDone =>
      if s.caller = .joining ∧ s.thread = .done then
        some { s with caller := .returned }
      else none
  | .joinTimeout =>
      if s.caller = .joining then some { s with caller := .returned } else none

/-- Run a schedule of stop/record events. -/
def stopRun (s : StopState) : List StopEv → Option StopState
  | [] => some s
  | e :: es =>
      match stopStep s e with
      | none => none
      | some s2 => stopRun s2 es

/-- Initial state for the stop scenario: the listener is enabled (after
`start()`), its thread is in the loop, `stop()` not yet called. -/
def stopInit : StopState :=
  { running := true, stopEventSet := false, thread := .idle, caller := .notCalled }

/-- **C4, counterexample.**  A valid interleaving in which the commentator
acquires the microphone lease *after* `stop()` has returned: the thread
passes `record_audio`'s entry check, then `stop()` runs in full (signal,
join, 2-second timeout expiry, return), and only then the thread reaches
`with audio_lock:` and starts recording.  So after `stop()` returns the
commentator holds a lease, refuting the claim. -/
theorem stop_lease_counterexample :
    stopRun stopInit
        [StopEv.checkPass, StopEv.stopSignal, StopEv.joinTimeout, StopEv.acquireLock 5] =
      some { running := false, stopEventSet := true, thread := ThreadSt.recording 5,
             caller := CallerSt.returned } ∧
      StopState.leaseHeld
        { running := false, stopEventSet := true, thread := ThreadSt.recording 5,
          caller := CallerSt.returned } = true := by
  constructor <;> rfl

theorem stopStep_called_inv {s s2 : StopState} {e : StopEv}
    (h : s.caller ≠ CallerSt.notCalled → s.stopEventSet = true ∧ s.running = false)
    (hs : stopStep s e = some s2) :
    s2.caller ≠ CallerSt.notCalled → s2.stopEventSet = true ∧ s2.running = false := by
  cases e <;> simp only [stopStep] at hs <;> (repeat' split at hs) <;>
    (try cases hs) <;> simp_all

theorem stopRun_called_inv :
    ∀ (evs : List StopEv) (s s2 : StopState),
      (s.caller ≠ CallerSt.notCalled → s.stopEventSet = true ∧ s.running = false) →
      stopRun s evs = some s2 →
      (s2.caller ≠ CallerSt.notCalled → s2.stopEventSet = true ∧ s2.running = false) := by
  intro evs
  induction evs with
  | nil => intro s s2 h hr; simp only [stopRun, Option.some.injEq] at hr; cases hr; exact h
  | cons e es ih =>
      intro s s2 h hr
      simp only [stopRun] at hr
      cases hs : stopStep s e with
      | none => rw [hs] at hr; cases hr
      | some s1 =>
          rw [hs] at hr
          exact ih s1 s2 (stopStep_called_inv h hs) hr

/-- The thread is outside `record_audio`'s check-to-release window: it
neither holds the lease nor has a passed entry check pending. -/
def StopState.quiescent (s : StopState) : Prop :=
  s.thread = ThreadSt.idle ∨ s.thread = ThreadSt.done

/-- 1 when the thread has a passed entry check pending (is `armed`). -/
def armedBit (s : StopState) : Nat :=
  if s.thread = ThreadSt.armed then 1 else 0

/-- 1 for a lock-acquisition event. -/
def acquireBit : StopEv → Nat
  | .acquireLock _ => 1
  | _ => 0

/-- Number of lock acquisitions a schedule performs. -/
def countAcquires (evs : List StopEv) : Nat :=
  (evs.map acquireBit).sum

theorem stopStep_quiescent {s s2 : StopState} {e : StopEv}
    (hev : s.stopEventSet = true) (hq : s.quiescent)
    (hs : stopStep s e = some s2) :
    s2.stopEventSet = true ∧ s2.quiescent := by
  cases e <;> simp only [stopStep] at hs <;> (repeat' split at hs) <;>
    (try cases hs) <;> simp_all [StopState.quiescent]

theorem stopStep_acquire_count {s s2 : StopState} {e : StopEv}
    (hev : s.stopEventSet = true) (hs : stopStep s e = some s2) :
    s2.stopEventSet = true ∧ acquireBit e + armedBit s2 ≤ armedBit s := by
  cases e <;> simp only [stopStep] at hs <;> (repeat' split at hs) <;>
    (try cases hs) <;> simp_all [acquireBit, armedBit]

theorem stopRun_quiescent :
    ∀ (evs : List StopEv) (s s2 : StopState),
      s.stopEventSet = true → s.quiescent →
      stopRun s evs = some s2 → s2.quiescent := by
  intro evs
  induction evs with
  | nil =>
      intro s s2 _ hq hr
      simp only [stopRun, Option.some.injEq] at hr
      cases hr
      exact hq
  | cons e es ih =>
      intro s s2 hev hq hr
      simp only [stopRun] at hr
      cases hs : stopStep s e with
      | none => rw [hs] at hr; cases hr
      | some s1 =>
          rw [hs] at hr
          obtain ⟨hev1, hq1⟩ := stopStep_quiescent hev hq hs
          exact ih s1 s2 hev1 hq1 hr

theorem stopRun_acquire_count :
    ∀ (evs : List StopEv) (s s2 : StopState),
      s.stopEventSet = true → stopRun s evs = some s2 →
      countAcquires evs + armedBit s2 ≤ armedBit s := by
  intro evs
  induction evs with
  | nil =>
      intro s s2 _ hr
      simp only [stopRun, Option.some.injEq] at hr
      cases hr
      simp [countAcquires]
  | cons e es ih =>
      intro s s2 hev hr
      simp only [stopRun] at hr
      cases hs : stopStep s e with
      | none => rw [hs] at hr; cases hr
      | some s1 =>
          rw [hs] at hr
          obtain ⟨hev1, hcnt⟩ := stopStep_acquire_count hev hs
          have hih := ih s1 s2 hev1 hr
          simp only [countAcquires, List.map_cons, List.sum_cons] at *
          omega

/-- **C4, amended.**  In every valid interleaving from the enabled state:
(1) whenever the `stop()` caller is blocked in `thread.join(timeout=2)`,
the timeout step is enabled, so `stop()` returns after a bounded wait
regardless of the thread (the wait never exceeds the 2-second timeout);
(2) once `stop()` has been invoked, cancellation has been requested
(`running` is `False` and `stop_event` is set) and stays requested;
(3) once the stop event is set, a capture whose `record_audio` entry
check has already passed may still acquire the lock — even after `stop()`
returns, as `stop_lease_counterexample` shows — but at most one such
acquisition can ever follow (the entry check can never pass again); and
(4) once the stop event is set and the thread is outside the
check-to-release window (neither armed nor recording), it stays outside
it in every continuation and never holds the microphone lease again. -/
theorem stop_bounded_and_no_new_capture (evs : List StopEv) (s : StopState)
    (h : stopRun stopInit evs = some s) :
    (s.caller = CallerSt.joining →
        stopStep s StopEv.joinTimeout = some { s with caller := CallerSt.returned }) ∧
      (s.caller ≠ CallerSt.notCalled → s.stopEventSet = true ∧ s.running = false) ∧
      (s.stopEventSet = true →
        ∀ (evs2 : List StopEv) (s2 : StopState), stopRun s evs2 = some s2 →
          countAcquires evs2 ≤ armedBit s) ∧
      (s.stopEventSet = true → s.quiescent →
        ∀ (evs2 : List StopEv) (s2 : StopState), stopRun s evs2 = some s2 →
          s2.quiescent ∧ s2.leaseHeld = false) := by
  refine ⟨?_, ?_, ?_, ?_⟩
  · intro hj
    simp [stopStep, hj]
  · exact stopRun_called_inv evs stopInit s (by intro hc; exact absurd rfl hc) h
  · intro hev evs2 s2 h2
    have := stopRun_acquire_count evs2 s s2 hev h2
    omega
  · intro hev hq evs2 s2 h2
    have hq2 := stopRun_quiescent evs2 s s2 hev hq h2
    refine ⟨hq2, ?_⟩
    rcases hq2 with hq2 | hq2 <;> simp [StopState.leaseHeld, hq2]

/-- Witness for the amended theorem: after a full capture and `stop()`,
the thread exits and the join completes; from that quiescent state no
continuation schedule performs an acquisition or re-takes the lease. -/
theorem stop_bounded_and_no_new_capture_witness :
    ({ running := false, stopEventSet := true, thread := ThreadSt.done,
       caller := CallerSt.returned } : StopState).leaseHeld = false := by
  have h := stop_bounded_and_no_new_capture
    [StopEv.checkPass, StopEv.acquireLock 1, StopEv.stopSignal, StopEv.recFinish,
     StopEv.threadExit, StopEv.joinDone]
    { running := false, stopEventSet := true, thread := ThreadSt.done,
      caller := CallerSt.returned }
    (by rfl)
  exact (h.2.2.2 rfl (Or.inr rfl) [] _ rfl).2

/-! ### Sound-activity detection (`raspai_integrated.py` lines 360-384)

`_calculate_audio_energy` runs
`np.sqrt(np.mean(np.square(np.frombuffer(data, dtype=np.int16))))` and the
detector compares the result with `SOUND_THRESHOLD = 2000`.  Two facts of
the NumPy semantics matter:

* `np.square` on an int16 array **keeps the int16 dtype**, so every square
  wraps modulo 2¹⁶ into `[-32768, 32767]` (e.g. `2001² = 4004001` wraps to
  `6305`);
* `np.mean` is then the exact rational mean of those wrapped values, and
  `np.sqrt` of a negative mean is NaN, which compares false against the
  threshold.

Square roots are not needed in the embedding: for `n > 0` samples,
`sqrt(sum/n) > 2000 ↔ sum > 2000² · n` when the sum is non-negative, and
both sides are false when it is negative (NaN) or when `n = 0` (NaN), so
we carry the wrapped sum of squares and compare cross-multiplied.
`_detect_sound_activity` is a fold over the recorded chunks; each chunk
carries its samples and the value of `time.time()` at which it is
processed. -/

/-- `SOUND_THRESHOLD = 2000`. -/
def SOUND_THRESHOLD : ℤ := 2000

/-- `MIN_SOUND_DURATION = 2` (seconds).  Times in this embedding are
integers in seconds; the source's `time.time()` is a real-valued clock,
but every statement below is uniform in the time values, so the integer
subring carries the claims faithfully and keeps the model executable. -/
def MIN_SOUND_DURATION : ℤ := 2

/-- One chunk read from the capture stream: its int16 samples and the
wall-clock time at which `_detect_sound_activity` processes it. -/
structure Chunk where
  data : List ℤ
  time : ℤ
  deriving DecidableEq, Repr

/-- Two's-complement wrap of an integer into the int16 range
`[-32768, 32767]` — what NumPy does to each element of an int16 array
operation. -/
def int16_wrap (v : ℤ) : ℤ :=
  (v + 32768) % 65536 - 32768

/-- Sum of the squared samples of a chunk as `np.square` computes them on
the int16 buffer: each square wraps to int16 before being summed by the
mean. -/
def sum_of_squares (data : List ℤ) : ℤ :=
  (data.map fun x => int16_wrap (x * x)).sum

/-- The detector's per-chunk test `energy > SOUND_THRESHOLD`,
cross-multiplied (see the section comment): mean of wrapped squares
exceeds `2000²`.  A negative sum (negative mean, NaN energy) and an empty
chunk (NaN mean) both compare false, matching NumPy. -/
def soundAbove (c : Chunk) : Prop :=
  SOUND_THRESHOLD * SOUND_THRESHOLD * (c.data.length : ℤ) < sum_of_squares c.data

instance (c : Chunk) : Decidable (soundAbove c) := by
  unfold soundAbove
  infer_instance

/-- The detector's mutable fields on `PassiveListener`. -/
structure DetectState where
  current_state : Nat
  sound_start_time : ℤ
  total_sound_duration : ℤ
  any_sound_detected : Bool
  deriving DecidableEq, Repr

/-- `PassiveListener._detect_sound_activity(audio_data)`, one chunk. -/
def detect_sound_activity (s : DetectState) (c : Chunk) : DetectState :=
  if soundAbove c then
    if s.current_state = 0 then
      { s with current_state := 1, sound_start_time := c.time }
    else
      if MIN_SOUND_DURATION ≤ c.time - s.sound_start_time ∧ s.any_sound_detected = false then
        { s with any_sound_detected := true }
      else s
  else
    if s.current_state = 1 then
      { s with total_sound_duration := s.total_sound_duration + (c.time - s.sound_start_time),
               current_state := 0 }
    else s

/-- The reset performed at the top of `record_audio`: `current_state = 0`,
`total_sound_duration = 0`, `any_sound_detected = False`
(`sound_start_time` is left as it was). -/
def resetDetect (s : DetectState) : DetectState :=
  { s with current_state := 0, total_sound_duration := 0, any_sound_detected := false }

/-- `PassiveListener.record_audio(duration)` of `raspai_integrated.py`
(success path, no stream exception): returns early when the listener is
not running or the stop event is set; otherwise resets the detector,
reads the chunk sequence under `audio_lock` (the lock itself is modelled
by `arbStep`), folding `_detect_sound_activity` over it, and returns
`any_sound_detected`.  `chunks` is the sequence the loop reads (at most
`SAMPLE_RATE / CHUNK * duration` chunks; fewer when the stop event breaks
the loop). -/
def record_audio_integrated (running stopEventSet : Bool) (prev : DetectState)
    (chunks : List Chunk) : Bool × DetectState :=
  if running = false ∨ stopEventSet = true then (false, prev)
  else
    let s := chunks.foldl detect_sound_activity (resetDetect prev)
    (s.any_sound_detected, s)

/-- Outcome of one `run_commentary_cycle`, recording which collaborators
were invoked. -/
structure CycleOutcome where
  transcriptionCalled : Bool
  completionCalled : Bool
  spokenText : Option String
  deriving DecidableEq, Repr

/-- The five harshness tiers (`harshness_descriptions.get(h, "harsh")`). -/
def harshness_descriptions (h : Nat) : String :=
  if h = 1 then "slightly sarcastic but gentle"
  else if h = 2 then "sarcastic and a bit critical"
  else if h = 3 then "mean and sarcastic"
  else if h = 4 then "very harsh and critical"
  else if h = 5 then "brutally honest and mercilessly harsh"
  else "harsh"

/-- The branch interpolated into the prompt f-string: the content branch
when `transcription` is truthy (non-empty), the no-content branch
otherwise. -/
def prompt_branch (transcription : String) : String :=
  if transcription ≠ "" then "Here\x27s what you heard: " ++ transcription
  else "You heard nothing interesting at all."

/-- The commentary prompt of `PassiveListener.get_gemini_commentary` in
`raspai_integrated.py` (the triple-quoted f-string, with its literal
newlines and indentation). -/
def gemini_prompt (harshness : Nat) (transcription : String) : String :=
  let d := harshness_descriptions harshness
  "You are a " ++ d ++ " commentator who overheard some audio.\n        \n        " ++
    "Make a brief, funny, " ++ d ++
    " comment (max 50 words) about what you heard or the lack of anything interesting." ++
    "\n        \n        " ++
    "Be creative and make jokes about the content, quality, or lack of interesting material." ++
    "\n        \n        " ++ prompt_branch transcription ++ "\n        "

/-- The commentary prompt of `passive_listener.py` (identical except for
the phrase `(50 words max)`). -/
def gemini_prompt_passive (harshness : Nat) (transcription : String) : String :=
  let d := harshness_descriptions harshness
  "You are a " ++ d ++ " commentator who overheard some audio.\n        \n        " ++
    "Make a brief, funny, " ++ d ++
    " comment (50 words max) about what you heard or the lack of anything interesting." ++
    "\n        \n        " ++
    "Be creative and make jokes about the content, quality, or lack of interesting material." ++
    "\n        \n        " ++ prompt_branch transcription ++ "\n        "

/-- `PassiveListener.get_gemini_commentary`: builds the prompt, invokes
the remote completion collaborator (`model.generate_content`, modelled by
the oracle `apiResult`: `some t` is a successful `response.text`, `none`
an exception) and returns `response.text.strip()` on success or the fixed
fallback string on failure. -/
def get_gemini_commentary (harshness : Nat) (transcription : String)
    (apiResult : Option String) : String × String :=
  (gemini_prompt harshness transcription,
    match apiResult with
    | some t => t.trim
    | none =>
        "I was going to say something mean, but even I\x27m not interested in what I just heard.")

/-- `PassiveListener.run_commentary_cycle` of `raspai_integrated.py`:
returns early when not running or stopped; records
(`recording_duration = min(30, interval // 4)` seconds of chunks); when
meaningful sound was detected (and the stop event is still unset) it
calls `transcribe_audio` — modelled by the oracle `transcribeResult`,
which is the recognized text, or `""` when transcription failed — then
always calls `get_gemini_commentary` on that text and, if the stop event
is still unset, enqueues the commentary to the shared TTS.  Otherwise it
skips the cycle. -/
def run_commentary_cycle_integrated (running stopEventSet : Bool) (harshness : Nat)
    (prev : DetectState) (chunks : List Chunk) (transcribeResult : String)
    (apiResult : Option String) : CycleOutcome × DetectState :=
  if running = false ∨ stopEventSet = true then
    ({ transcriptionCalled := false, completionCalled := false, spokenText := none }, prev)
  else
    let r := record_audio_integrated running stopEventSet prev chunks
    if r.1 = true ∧ stopEventSet = false then
      let transcription := transcribeResult
      let commentary := (get_gemini_commentary harshness transcription apiResult).2
      if stopEventSet = false then
        ({ transcriptionCalled := true, completionCalled := true,
           spokenText := some commentary }, r.2)
      else
        ({ transcriptionCalled := true, completionCalled := true, spokenText := none }, r.2)
    else
      ({ transcriptionCalled := false, completionCalled := false, spokenText := none }, r.2)

/-- Below-threshold chunks never touch `any_sound_detected`. -/
theorem foldl_detect_below_any :
    ∀ (l : List Chunk) (s : DetectState), (∀ c ∈ l, ¬soundAbove c) →
      (l.foldl detect_sound_activity s).any_sound_detected = s.any_sound_detected := by
  intro l
  induction l with
  | nil => intro s _; rfl
  | cons c cs ih =>
      intro s hall
      rw [List.foldl_cons]
      have hstep : (detect_sound_activity s c).any_sound_detected = s.any_sound_detected := by
        unfold detect_sound_activity
        have := hall c (List.mem_cons_self c cs)
        split_ifs <;> simp_all
      rw [ih _ fun x hx => hall x (List.mem_cons_of_mem c hx), hstep]

theorem int16_wrap_le (v : ℤ) : int16_wrap v ≤ 32767 := by
  unfold int16_wrap
  omega

theorem sum_of_squares_le (data : List ℤ) :
    sum_of_squares data ≤ 32767 * (data.length : ℤ) := by
  induction data with
  | nil => simp [sum_of_squares]
  | cons x xs ih =>
      simp only [sum_of_squares, List.map_cons, List.sum_cons, List.length_cons] at *
      have := int16_wrap_le (x * x)
      push_cast
      omega

/-- The sound gate can never fire: `np.square` wraps every square to
int16, so the mean of squares is at most 32767 and the computed energy
never exceeds `sqrt 32767 ≈ 181` (or is NaN); the `> 2000` comparison is
false for every possible chunk. -/
theorem soundAbove_never (c : Chunk) : ¬soundAbove c := by
  unfold soundAbove SOUND_THRESHOLD
  have h := sum_of_squares_le c.data
  have hlen : (0 : ℤ) ≤ (c.data.length : ℤ) := Int.ofNat_nonneg _
  omega

/-- Hence `record_audio` never reports sound, whatever was captured. -/
theorem record_audio_never_detects (running stopEventSet : Bool) (prev : DetectState)
    (chunks : List Chunk) :
    (record_audio_integrated running stopEventSet prev chunks).1 = false := by
  unfold record_audio_integrated
  split
  · rfl
  · show (chunks.foldl detect_sound_activity (resetDetect prev)).any_sound_detected = false
    rw [foldl_detect_below_any chunks (resetDetect prev) fun c _ => soundAbove_never c]
    rfl

/-- Hence every commentary cycle skips transcription, completion and
speech. -/
theorem cycle_always_skips (running stopEventSet : Bool) (harshness : Nat)
    (prev : DetectState) (chunks : List Chunk) (transcribeResult : String)
    (apiResult : Option String) :
    (run_commentary_cycle_integrated running stopEventSet harshness prev chunks
        transcribeResult apiResult).1 =
      { transcriptionCalled := false, completionCalled := false, spokenText := none } := by
  unfold run_commentary_cycle_integrated
  have hr := record_audio_never_detects running stopEventSet prev chunks
  split
  · rfl
  · simp [hr]

/-- **C6 (code bug).**  The claimed sound gate cannot operate in the
program: `np.square` keeps the int16 dtype of the buffer, so each squared
sample wraps modulo 2¹⁶ and the computed energy is bounded by
`sqrt 32767 ≈ 181` (or NaN), never exceeding the 2000 threshold.
Consequently no chunk ever tests above threshold, `any_sound_detected`
stays `false` in every recording (so a fortiori the all-quiet half of the
claim holds and the above-threshold half is unreachable), and every cycle
makes no transcription call and no completion call.  At the claim's kind
of input — samples of constant value 2001, whose true RMS is 2001 > 2000 —
the wrapped square is `int16_wrap (2001²) = 6305`, although the intended
(unwrapped) comparison `2000² · 1 < 2001²` holds. -/
theorem sound_gate_dead_code (running stopEventSet : Bool) (harshness : Nat)
    (prev : DetectState) (chunks : List Chunk) (transcribeResult : String)
    (apiResult : Option String) :
    (∀ c : Chunk, ¬soundAbove c) ∧
      (record_audio_integrated running stopEventSet prev chunks).1 = false ∧
      (chunks.foldl detect_sound_activity (resetDetect prev)).any_sound_detected = false ∧
      (run_commentary_cycle_integrated running stopEventSet harshness prev chunks
          transcribeResult apiResult).1 =
        { transcriptionCalled := false, completionCalled := false, spokenText := none } ∧
      int16_wrap (2001 * 2001) = 6305 ∧
      SOUND_THRESHOLD * SOUND_THRESHOLD * 1 < 2001 * 2001 := by
  refine ⟨soundAbove_never, record_audio_never_detects running stopEventSet prev chunks,
    ?_, cycle_always_skips running stopEventSet harshness prev chunks transcribeResult
      apiResult, by decide, by decide⟩
  rw [foldl_detect_below_any chunks (resetDetect prev) fun c _ => soundAbove_never c]
  rfl

/-- **C7 (code bug).**  The transcription-failure routing the claim
describes is unreachable: because the sound gate never fires (see
`sound_gate_dead_code`), no cycle ever invokes the transcription
collaborator at all, so "the transcription collaborator fails for a
recorded session" never happens; in every cycle nothing is requested from
the completion collaborator and nothing is spoken — but not by the
claimed routing.  The cycle code itself (lines 493-513), were the gate to
fire, would pass a failed (empty) transcription on to
`get_gemini_commentary` instead of routing to Idle. -/
theorem transcription_failure_unreachable (running stopEventSet : Bool) (harshness : Nat)
    (prev : DetectState) (chunks : List Chunk) (transcribeResult : String)
    (apiResult : Option String) :
    (run_commentary_cycle_integrated running stopEventSet harshness prev chunks
        transcribeResult apiResult).1.transcriptionCalled = false ∧
      (run_commentary_cycle_integrated running stopEventSet harshness prev chunks
          transcribeResult apiResult).1.completionCalled = false ∧
      (run_commentary_cycle_integrated running stopEventSet harshness prev chunks
          transcribeResult apiResult).1.spokenText = none := by
  rw [cycle_always_skips running stopEventSet harshness prev chunks transcribeResult
    apiResult]
  exact ⟨rfl, rfl, rfl⟩

/-! ### Toggle debouncing (`button_control.py` lines 102-124 and
`raspai_integrated.py` lines 634-666)

`ButtonController.run` polls the pin every 0.1 s; a HIGH→LOW edge is a
press, accepted only when `current_time - last_press_time >
debounce_time` with `debounce_time = 0.3` seconds; an accepted press
calls `toggle_assistant()` and updates `last_press_time`.

`IntegratedAssistant.setup_gpio` instead registers `button_callback`
(which calls `toggle_passive_listener`) through
`GPIO.add_event_detect(..., bouncetime=500)`: the RPi.GPIO library
delivers the callback and suppresses events inside the 500 ms bounce
window. -/

/-- One poll-loop sample of `ButtonController.run`: the value of
`time.time()` (in milliseconds here, so that the source's 0.3-second and
500-millisecond constants are both integers) and the pin level read by
`GPIO.input` (`true` = HIGH). -/
structure BtnSample where
  time : ℤ
  level : Bool
  deriving DecidableEq, Repr

/-- The loop state of `ButtonController.run`: `last_button_state`,
`last_press_time`, and a count of calls to `toggle_assistant()`. -/
structure BtnState where
  last_button_state : Bool
  last_press_time : ℤ
  toggles : Nat
  deriving DecidableEq, Repr

/-- `debounce_time = 0.3` seconds (`button_control.py` line 105), i.e.
300 in the millisecond unit of this model. -/
def debounce_time : ℤ := 300

/-- One iteration of `ButtonController.run`'s polling loop. -/
def buttonStep (s : BtnState) (x : BtnSample) : BtnState :=
  if x.level = false ∧ s.last_button_state = true then
    if debounce_time < x.time - s.last_press_time then
      { last_button_state := x.level, last_press_time := x.time, toggles := s.toggles + 1 }
    else
      { s with last_button_state := x.level }
  else
    { s with last_button_state := x.level }

/-- The polling loop over a sequence of samples. -/
def buttonRun (s : BtnState) (xs : List BtnSample) : BtnState :=
  xs.foldl buttonStep s

/-- Loop-entry state: `last_button_state` is the initial pin read (HIGH,
pull-up, button released) and `last_press_time = 0`. -/
def buttonInit : BtnState :=
  { last_button_state := true, last_press_time := 0, toggles := 0 }

/-- Modelled from the spec: the `bouncetime` filter of RPi.GPIO's
`add_event_detect` (the interrupt source is an external collaborator; the
receiver only configures it, with `bouncetime=500` in
`IntegratedAssistant.setup_gpio`).  Events are timestamps in
milliseconds; an event is delivered to the callback only when at least
`bouncetime` has elapsed since the last delivered event, so "minimum
`bouncetime` between accepted events". -/
def bounceFilter (bouncetime : ℤ) : Option ℤ → List ℤ → List ℤ
  | _, [] => []
  | none, t :: ts => t :: bounceFilter bouncetime (some t) ts
  | some last, t :: ts =>
      if bouncetime ≤ t - last then t :: bounceFilter bouncetime (some t) ts
      else bounceFilter bouncetime (some last) ts

/-- **C8, counterexample.**  In `ButtonController.run` two press edges
400 ms apart — less than 500 ms — each pass the 0.3-second debounce test
and produce **two** toggle effects, refuting the claimed minimum 500 ms
interval between accepted events. -/
theorem debounce_counterexample :
    (buttonRun buttonInit
        [⟨1000, false⟩, ⟨1200, true⟩, ⟨1400, false⟩]).toggles = 2 ∧
      ((1400 : ℤ) - 1000 < 500) := by
  constructor
  · rfl
  · decide

/-- **C8, amended.**  The integrated assistant's interrupt path is
debounced at 500 ms: its GPIO event detection is registered with
`bouncetime=500`, so **any** two interrupt events less than 500 ms apart
deliver exactly one callback and hence one toggle effect (first
conjunct, whose only assumption is the sub-500-ms gap).  The standalone
`ButtonController`, however, debounces at `debounce_time = 0.3` seconds:
press edges at most 0.3 s apart produce exactly one toggle effect
(second conjunct) — while, per the counterexample, edges between 0.3 s
and 0.5 s apart each toggle there. -/
theorem debounce_amended (t1 t2 : ℤ) (tm : ℤ) :
    (t2 - t1 < 500 → (bounceFilter 500 none [t1, t2]).length = 1) ∧
      (debounce_time < t1 → t2 - t1 ≤ debounce_time →
        (buttonRun buttonInit [⟨t1, false⟩, ⟨tm, true⟩, ⟨t2, false⟩]).toggles = 1) := by
  constructor
  · intro hlt
    have hnot : ¬(500 : ℤ) ≤ t2 - t1 := by omega
    simp [bounceFilter, hnot]
  · intro hfirst hclose
    have h2 : ¬debounce_time < t2 - t1 := by omega
    simp [buttonRun, buttonStep, buttonInit, hfirst, h2]

/-- Witness: GPIO events at 1000 ms and 1400 ms (400 ms apart — inside
the band where the polling controller double-toggles) yield one accepted
event; polling-loop edges at 1000 ms and 1300 ms (300 ms apart) yield one
toggle. -/
theorem debounce_amended_witness :
    (bounceFilter 500 none [(1000 : ℤ), 1400]).length = 1 ∧
      (buttonRun buttonInit
        [⟨1000, false⟩, ⟨1200, true⟩, ⟨1300, false⟩]).toggles = 1 :=
  ⟨(debounce_amended 1000 1400 0).1 (by decide),
   (debounce_amended 1000 1300 1200).2 (by decide) (by decide)⟩

/-! ### The commentary prompt (claim C9) -/

/-- `needle` is a prefix of `hay` (character lists). -/
def listStarts : List Char → List Char → Bool
  | [], _ => true
  | _ :: _, [] => false
  | a :: as, b :: bs => (a == b) && listStarts as bs

/-- `needle` occurs contiguously somewhere in `hay`. -/
def listHasSub (needle : List Char) : List Char → Bool
  | [] => needle.isEmpty
  | b :: bs => listStarts needle (b :: bs) || listHasSub needle bs

/-- `needle` is a contiguous substring of `hay`. -/
def strHasSub (needle hay : String) : Prop :=
  listHasSub needle.data hay.data = true

instance (needle hay : String) : Decidable (strHasSub needle hay) := by
  unfold strHasSub
  infer_instance

set_option maxRecDepth 100000 in
/-- **C9.** The commentary-prompt builder with `harshness = 1` and
transcription `"hello world"` produces a prompt containing both the
literal transcription and the descriptor "slightly sarcastic but gentle";
with `harshness = 5` and empty transcription it produces a prompt
containing the "brutally honest" descriptor and the no-content phrasing;
and for every transcription the interpolated branch is the content branch
exactly when the transcription is non-empty and the no-content branch
exactly when it is empty — and the two branch texts are never equal, so a
prompt never carries both. -/
theorem gemini_prompt_properties :
    strHasSub "hello world" (gemini_prompt 1 "hello world") ∧
      strHasSub "slightly sarcastic but gentle" (gemini_prompt 1 "hello world") ∧
      strHasSub "brutally honest" (gemini_prompt 5 "") ∧
      strHasSub "You heard nothing interesting at all." (gemini_prompt 5 "") ∧
      strHasSub "hello world" (gemini_prompt_passive 1 "hello world") ∧
      strHasSub "slightly sarcastic but gentle" (gemini_prompt_passive 1 "hello world") ∧
      strHasSub "brutally honest" (gemini_prompt_passive 5 "") ∧
      strHasSub "You heard nothing interesting at all." (gemini_prompt_passive 5 "") ∧
      ∀ t : String,
        (t ≠ "" → prompt_branch t = "Here\x27s what you heard: " ++ t) ∧
          (t = "" → prompt_branch t = "You heard nothing interesting at all.") ∧
          "Here\x27s what you heard: " ++ t ≠ "You heard nothing interesting at all." := by
  refine ⟨by decide, by decide, by decide, by decide, by decide, by decide, by decide,
    by decide, ?_⟩
  intro t
  refine ⟨?_, ?_, ?_⟩
  · intro h
    simp [prompt_branch, h]
  · intro h
    simp [prompt_branch, h]
  · intro h
    have h2 : ("Here\x27s what you heard: " ++ t).data =
        ("You heard nothing interesting at all." : String).data := congrArg String.data h
    rw [String.data_append] at h2
    have hx : (("Here\x27s what you heard: " : String).data ++ t.data).head? = some 'H' := rfl
    have hcontr : some 'H' = some 'Y' := by rw [← hx, h2]; rfl
    simp at hcontr

/-- Witness: at the concrete transcription "hello world" the branch
condition is discharged and the content branch is selected. -/
theorem gemini_prompt_properties_witness :
    prompt_branch "hello world" = "Here\x27s what you heard: " ++ "hello world" :=
  (gemini_prompt_properties.2.2.2.2.2.2.2.2 "hello world").1 (by decide)

end Raspai
